import Mathlib

/-
Verification of the nintynine-boundaries boundary pipeline
(`nintynine_boundaries/utils.py` and `nintynine_boundaries/make_boundary.py`).

The geometry engine (shapely / geopandas) is an external capability; it is
modelled by an abstract structure `GeoOps` whose fields mirror the primitive
operations the pipeline uses.  An operation that may raise an exception
(`geometry.intersection` inside the `try` block of `filter_by_overlap`, or a
computation aborting `overlay`) is modelled with an `Option` result, `none`
standing for a raised exception.  Areas and delays are rational numbers.

A row of a GeoDataFrame is modelled by `FeatureRow`: the `id` column
(relation id), the `tags` column, the active `geometry`, and the transient
`overlap_ratio` column (`none` when the column is absent on that row).
-/

namespace NB

/-- Abstract geometry engine capability set used by the pipeline. -/
structure GeoOps (G : Type) where
  union : G → G → G
  emptyG : G
  inter : G → G → Option G
  isEmpty : G → Bool
  area : G → ℚ
  intersects : G → G → Bool

/-- Model of `GeoSeries.union_all` / shapely `union_all` over a list of
geometries: fold of the binary union; the union of a singleton is the
geometry itself. -/
def unionAll {G : Type} (ops : GeoOps G) : List G → G
  | [] => ops.emptyG
  | g :: gs => gs.foldl ops.union g

/-- One row of a GeoDataFrame as used by the pipeline: the relation id
(`id` column), the tag mapping, the geometry, and the transient
`overlap_ratio` column (`none` = column absent for this row). -/
structure FeatureRow (G : Type) where
  id : Int
  tags : List (String × String)
  geometry : G
  overlap_ratio : Option ℚ
deriving DecidableEq

/-- The dissolved reference geometry `reference_gdf.geometry.union_all()`
computed by `filter_by_overlap`. -/
def referenceGeom {G : Type} (ops : GeoOps G) (reference_gdf : List (FeatureRow G)) : G :=
  unionAll ops (reference_gdf.map (·.geometry))

/-- Model of the inner `calculate_overlap_ratio` closure of
`filter_by_overlap` (utils.py lines 525-534): intersection inside a
`try` block, `0.0` for an empty intersection, ratio of areas otherwise;
any raised exception (modelled by `ops.inter … = none`, or by the
`ZeroDivisionError` of `intersection.area / geometry.area` when
`geometry.area` is zero) yields `1.0`. -/
def calculate_overlap_ratio {G : Type} (ops : GeoOps G) (reference_geom : G) (geometry : G) : ℚ :=
  match ops.inter geometry reference_geom with
  | none => 1
  | some intersection =>
    if ops.isEmpty intersection then 0
    else if ops.area geometry = 0 then 1
    else ops.area intersection / ops.area geometry

/-- Model of `filter_by_overlap` (utils.py lines 498-542).  The Python
function mutates its argument (`gdf["overlap_ratio"] = …`) and returns a
filtered copy with the column dropped; the model returns the pair
(state of the caller's `gdf` after the call, returned filtered frame). -/
def filter_by_overlap {G : Type} (ops : GeoOps G) (gdf reference_gdf : List (FeatureRow G))
    (min_overlap_ratio : ℚ) : List (FeatureRow G) × List (FeatureRow G) :=
  if reference_gdf.isEmpty || gdf.isEmpty then (gdf, gdf)
  else
    let reference_geom := referenceGeom ops reference_gdf
    let gdf1 := gdf.map fun r =>
      { r with overlap_ratio := some (calculate_overlap_ratio ops reference_geom r.geometry) }
    let filtered_gdf := gdf1.filter fun r =>
      decide (min_overlap_ratio ≤ Option.getD r.overlap_ratio 0)
    (gdf1, filtered_gdf.map fun r => { r with overlap_ratio := none })

/-- Model of `apply_overlap_filter` (utils.py lines 135-175): filtering is
applied only when the current admin level is strictly above 2 and a
reference frame is present; otherwise the frame is returned unchanged. -/
def apply_overlap_filter {G : Type} (ops : GeoOps G) (gdf : List (FeatureRow G))
    (current_admin_level : Nat) (gdf_country_reference : Option (List (FeatureRow G))) :
    List (FeatureRow G) :=
  match gdf_country_reference with
  | some reference =>
    if 2 < current_admin_level then (filter_by_overlap ops gdf reference (1/2)).2
    else gdf
  | none => gdf

/-! ## Remote fetch with retry (utils.py `overpass_call_with_retry`, lines 81-132) -/

/-- Error classes of one remote call: `requests.exceptions.HTTPError`
(transient, retried), any other exception (propagates immediately), and the
`RuntimeError` raised after the `for` loop (unreachable for positive
`max_retries`). -/
inductive FetchError where
  | httpError (msg : String)
  | otherError (msg : String)
  | runtimeError
deriving DecidableEq

/-- Body of the `for attempt in range(max_retries)` loop of
`overpass_call_with_retry`: `fuel` is the number of remaining loop
iterations, `attempt` the current loop index, `delay` the current backoff
delay.  The second component of the result is the list of `time.sleep`
delays observed during the call, in order. -/
def retry_loop {α : Type} (call : Nat → Except FetchError α) (max_retries : Nat) :
    Nat → Nat → ℚ → Except FetchError α × List ℚ
  | 0, _, _ => (.error .runtimeError, [])
  | fuel + 1, attempt, delay =>
    match call attempt with
    | .ok a => (.ok a, [])
    | .error (.httpError m) =>
      if attempt < max_retries - 1 then
        let rest := retry_loop call max_retries fuel (attempt + 1) (delay * 2)
        (rest.1, delay :: rest.2)
      else (.error (.httpError m), [])
    | .error e => (.error e, [])

/-- Model of `overpass_call_with_retry` (utils.py lines 81-132): the remote
service is an oracle `call` giving the outcome of each attempt; the result
pairs the final outcome with the list of sleep delays. -/
def overpass_call_with_retry {α : Type} (call : Nat → Except FetchError α)
    (max_retries : Nat) (initial_delay : ℚ) : Except FetchError α × List ℚ :=
  retry_loop call max_retries max_retries 0 initial_delay

/-! ## Geometries and coordinate counting -/

/-- Shallow geometry datatype covering the shapely geometry kinds the
pipeline distinguishes (via `geom_type`, `explode`, `exterior` /
`interiors` / `geoms` attributes).  A polygon is an exterior ring plus a
list of interior rings, each ring a list of coordinates. -/
inductive Geom where
  | point (coord : ℚ × ℚ)
  | lineString (coords : List (ℚ × ℚ))
  | polygon (exterior : List (ℚ × ℚ)) (interiors : List (List (ℚ × ℚ)))
  | multiLineString (parts : List (List (ℚ × ℚ)))
  | multiPolygon (parts : List (List (ℚ × ℚ) × List (List (ℚ × ℚ))))
deriving DecidableEq

/-- Model of shapely `geom_type`. -/
def Geom.geom_type : Geom → String
  | .point _ => "Point"
  | .lineString _ => "LineString"
  | .polygon _ _ => "Polygon"
  | .multiLineString _ => "MultiLineString"
  | .multiPolygon _ => "MultiPolygon"

/-- Model of `get_geometry_coordinate_count` (utils.py lines 255-281):
polygons (the geometries with an `exterior` attribute) count exterior plus
interior ring coordinates; multi-part geometries (with a `geoms`
attribute) sum over their polygonal parts; anything else counts 0. -/
def get_geometry_coordinate_count : Geom → Nat
  | .polygon exterior interiors =>
      exterior.length + (interiors.map List.length).sum
  | .multiPolygon parts =>
      (parts.map fun pr => pr.1.length + (pr.2.map List.length).sum).sum
  | _ => 0

/-! ## Geometry normalization (make_boundary.py `process_admin_level`, lines 246-253) -/

/-- The Point-removal step
`gdf_maritime[gdf_maritime["geometry"].apply(lambda x: x.geom_type != "Point")]`. -/
def remove_points (gdf : List (FeatureRow Geom)) : List (FeatureRow Geom) :=
  gdf.filter fun r => !(r.geometry.geom_type == "Point")

/-- Decomposition of one geometry by `GeoDataFrame.explode`: multi-part
geometries yield one row per part; single-part geometries pass through. -/
def explode_geom : Geom → List Geom
  | .multiLineString parts => parts.map .lineString
  | .multiPolygon parts => parts.map fun pr => .polygon pr.1 pr.2
  | g => [g]

/-- Model of `gdf.explode(index_parts=False)`: each row is replaced by one
row per geometry part, duplicating the non-geometry attributes. -/
def explode (gdf : List (FeatureRow Geom)) : List (FeatureRow Geom) :=
  gdf.flatMap fun r => (explode_geom r.geometry).map fun g => { r with geometry := g }

/-- The normalization performed in `process_admin_level` (make_boundary.py
lines 246-253): Point removal followed by multi-part decomposition. -/
def normalize_features (gdf : List (FeatureRow Geom)) : List (FeatureRow Geom) :=
  explode (remove_points gdf)

/-! ## Grouped re-aggregation (utils.py `to_files`, lines 346-377) -/

/-- Model of `pandas.Series.unique` on the `id` column: the distinct values
in order of first occurrence. -/
def unique_ids : List Int → List Int
  | [] => []
  | x :: xs => x :: unique_ids (xs.filter fun y => !(y == x))
termination_by l => l.length
decreasing_by
  simp only [List.length_cons]
  exact Nat.lt_succ_of_le (List.length_filter_le _ _)

/-- Model of the grouped re-aggregation block of `to_files` (utils.py lines
346-377): when the frame is non-empty (and has an `id` column, always true
in this model), group rows by relation id in first-occurrence order, union
each group's geometries, and keep the first-seen row's attributes. -/
def reaggregate {G : Type} (ops : GeoOps G) (gdf : List (FeatureRow G)) : List (FeatureRow G) :=
  if gdf.isEmpty then gdf
  else
    (unique_ids (gdf.map (·.id))).flatMap fun relation_id =>
      match gdf.filter (fun r => r.id == relation_id) with
      | [] => []
      | first :: rest =>
        [{ first with geometry := unionAll ops ((first :: rest).map (·.geometry)) }]

/-! ## Per-feature export loop (utils.py `to_files`, lines 379-419) -/

/-- The `for driver in formats` loop at the end of `to_files` (utils.py
lines 415-419), for one feature.  `write` is the file serialization
backend (`gpd_to_file`); an `Except.error` models a raised exception.
The Python loop has no `try` around `gpd_to_file`, so an exception
propagates and ends the loop.  The result is the list of formats for
which `gpd_to_file` was actually invoked, together with the propagating
exception, if any. -/
def format_loop (write : String → Except String Unit) (skip_geojson : Bool) :
    List String → List String × Option String
  | [] => ([], none)
  | driver :: rest =>
    if skip_geojson && (driver.toUpper == "GEOJSON") then
      format_loop write skip_geojson rest
    else
      match write driver with
      | .ok _ =>
        let r := format_loop write skip_geojson rest
        (driver :: r.1, r.2)
      | .error e => ([driver], some e)

/-- Per-feature body of `to_files` (utils.py lines 409-419): compute the
coordinate count, set `skip_geojson = coord_count > 50000`, then run the
format loop. -/
def to_files_feature (write : String → Except String Unit) (formats : List String)
    (geometry : Geom) : List String × Option String :=
  format_loop write (decide (50000 < get_geometry_coordinate_count geometry)) formats

/-! ## Land/maritime reconciliation (make_boundary.py `intersect_maritime_with_land`, lines 108-171) -/

/-- The spatial-index query `gdf_osm_land.sindex.query(maritime_geom,
predicate="intersects")` followed by `iloc`: the land rows whose geometry
intersects the maritime geometry. -/
def land_candidate_rows {G : Type} (ops : GeoOps G) (gdf_osm_land : List (FeatureRow G))
    (maritime_geom : G) : List (FeatureRow G) :=
  gdf_osm_land.filter fun l => ops.intersects l.geometry maritime_geom

/-- The `overlay(…, how="intersection")` step for one maritime feature:
pairwise intersections of the candidate land geometries with the maritime
geometry, keeping the non-empty pieces.  A raised exception in any
intersection (`ops.inter … = none`) aborts the whole computation. -/
def land_intersection_pieces {G : Type} (ops : GeoOps G) (gdf_osm_land : List (FeatureRow G))
    (m : FeatureRow G) : Option (List G) :=
  ((land_candidate_rows ops gdf_osm_land m.geometry).mapM fun l =>
      ops.inter l.geometry m.geometry).map fun gs =>
    gs.filter fun g => !ops.isEmpty g

/-- Body of the per-maritime-feature loop of `intersect_maritime_with_land`
(make_boundary.py lines 133-169): if the overlay result is non-empty,
dissolve the pieces into one geometry and emit one feature with the
maritime row's attributes (`maritime_row.to_dict()`) and the dissolved
geometry; otherwise emit nothing. -/
def intersect_with_land_single {G : Type} (ops : GeoOps G) (gdf_osm_land : List (FeatureRow G))
    (m : FeatureRow G) : Option (List (FeatureRow G)) :=
  (land_intersection_pieces ops gdf_osm_land m).map fun pieces =>
    if pieces.isEmpty then []
    else [{ m with geometry := unionAll ops pieces }]

/-- Model of `intersect_maritime_with_land` (make_boundary.py lines
108-171): process each maritime feature independently, concatenating the
per-feature results in order. -/
def intersect_maritime_with_land {G : Type} (ops : GeoOps G)
    (gdf_maritime gdf_osm_land : List (FeatureRow G)) : Option (List (FeatureRow G)) :=
  (gdf_maritime.mapM (intersect_with_land_single ops gdf_osm_land)).map List.flatten

/-! ## Query builders (utils.py lines 422-495) -/

/-- Model of `make_overpass_query` (utils.py lines 422-459). -/
def make_overpass_query (alpha2 : String) (admin_level : Nat) (parent_admin_level : Nat) :
    Except String String :=
  if admin_level == 2 then
    .ok ("\n        [timeout:600][out:json];\n        relation[\"boundary\"=\"administrative\"][\"admin_level\"=\"2\"][\"ISO3166-1\"=\""
      ++ alpha2 ++ "\"];\n        (._;>;);\n        out;\n        ")
  else if 2 < admin_level then
    .ok ("\n        [timeout:600][out:json];\n        relation[\"ISO3166-1\"=\""
      ++ alpha2 ++ "\"][\"admin_level\"=\"" ++ toString parent_admin_level
      ++ "\"][\"boundary\"=\"administrative\"]->.country;\n        (\n          relation(r.country)[\"boundary\"=\"administrative\"][\"admin_level\"=\""
      ++ toString admin_level
      ++ "\"];\n        );\n        (._;>;);\n        out;\n        ")
  else
    .error ("Admin level " ++ toString admin_level ++ " is not supported.")

/-- Model of `make_overpass_query_fallback` (utils.py lines 462-495); at
admin level 2 it delegates to `make_overpass_query` with its default
parent level 2. -/
def make_overpass_query_fallback (alpha2 : String) (admin_level : Nat) :
    Except String String :=
  if admin_level == 2 then
    make_overpass_query alpha2 admin_level 2
  else if 2 < admin_level then
    .ok ("\n        [timeout:600][out:json];\n        area[\"ISO3166-1\"=\""
      ++ alpha2 ++ "\"][\"admin_level\"=\"2\"]->.country;\n        (\n          relation(area.country)[\"boundary\"=\"administrative\"][\"admin_level\"=\""
      ++ toString admin_level
      ++ "\"];\n        );\n        (._;>;);\n        out;\n        ")
  else
    .error ("Admin level " ++ toString admin_level ++ " is not supported.")

/-! ## Helper lemmas -/

/-- Union of a single geometry is that geometry. -/
theorem unionAll_singleton {G : Type} (ops : GeoOps G) (g : G) : unionAll ops [g] = g := rfl

/-- Dropping the `overlap_ratio` column from a row that does not have it is
the identity. -/
theorem set_ratio_none_eq {G : Type} (r : FeatureRow G) (h : r.overlap_ratio = none) :
    { r with overlap_ratio := none } = r := by
  cases r
  simp only at h
  subst h
  rfl

/-- A `flatMap` whose body yields a singleton on every member collapses to a
`map`. -/
theorem flatMap_congr_singleton {α β : Type _} (l : List α) (F : α → List β) (g : α → β)
    (h : ∀ x ∈ l, F x = [g x]) : l.flatMap F = l.map g := by
  induction l with
  | nil => rfl
  | cons a t ih =>
    rw [List.flatMap_cons, List.map_cons, h a (List.mem_cons_self a t),
      ih (fun x hx => h x (List.mem_cons_of_mem a hx)), List.singleton_append]

/-! ## Claim C1 -/

/-- Claim C1 (failing-input evaluation): the claim states that after
normalization every geometry type is Polygon or MultiPolygon, with both
Point and LineString rejected.  On a raw collection holding a single
LineString feature, normalization (Point removal followed by explode,
make_boundary.py lines 246-253) keeps the LineString: only Points are
filtered out, and `explode` leaves a single-part LineString unchanged, so
the resulting geometry type is `"LineString"`, which is neither Polygon
nor MultiPolygon. -/
theorem C1_normalization_keeps_linestring :
    (normalize_features [⟨1, [], Geom.lineString [(0, 0), (1, 1)], none⟩]).map
        (fun r => r.geometry.geom_type) = ["LineString"]
    ∧ "LineString" ∉ (["Polygon", "MultiPolygon"] : List String) := by
  exact ⟨rfl, by decide⟩

/-! ## Claim C9 -/

/-- Claim C9: for every country code, the fallback query builder at the
root level (admin level 2) returns query text identical to the primary
query builder's text at that level; moreover the primary root query does
not depend on the parent admin level argument. -/
theorem C9_fallback_root_eq_primary (alpha2 : String) :
    make_overpass_query_fallback alpha2 2 = make_overpass_query alpha2 2 2
    ∧ ∀ parent_admin_level,
        make_overpass_query alpha2 2 parent_admin_level = make_overpass_query alpha2 2 2 := by
  exact ⟨rfl, fun _ => rfl⟩

/-- Claim C9 (witness): the root-level query identity at a concrete
country code. -/
theorem C9_fallback_root_eq_primary_witness :
    make_overpass_query_fallback "LU" 2 = make_overpass_query "LU" 2 2
    ∧ ∀ parent_admin_level,
        make_overpass_query "LU" 2 parent_admin_level = make_overpass_query "LU" 2 2 :=
  C9_fallback_root_eq_primary "LU"

/-! ## Claim C3 -/

/-- A serialization backend that raises on the SHP format and succeeds on
every other format. -/
def badWrite : String → Except String Unit :=
  fun driver => if driver == "SHP" then .error "width" else .ok ()

/-- Claim C3 (counterexample): the claim states that a serialization
failure for one format must not prevent the remaining formats from being
attempted.  In `to_files` the `gpd_to_file` call is not wrapped in any
`try`, so the exception propagates: with formats `["SHP", "GPKG"]` and a
backend failing on SHP, only SHP is attempted and GPKG is not. -/
theorem C3_counterexample :
    format_loop badWrite false ["SHP", "GPKG"] = (["SHP"], some "width")
    ∧ "GPKG" ∉ (format_loop badWrite false ["SHP", "GPKG"]).1 := by
  exact ⟨rfl, by decide⟩

/-- Claim C3 (amended): a serialization failure in one format aborts the
per-feature format loop: the formats before the failing one are attempted,
the failing format is the last one attempted, and the exception
propagates out of the loop, so the formats after it are never attempted. -/
theorem C3_failure_aborts_format_loop (write : String → Except String Unit)
    (fs1 fs2 : List String) (f : String) (e : String)
    (h1 : ∀ g ∈ fs1, write g = .ok ())
    (h2 : write f = .error e) :
    format_loop write false (fs1 ++ f :: fs2) = (fs1 ++ [f], some e) := by
  induction fs1 with
  | nil => simp [format_loop, h2]
  | cons a t ih =>
    have ha : write a = .ok () := h1 a (List.mem_cons_self a t)
    simp only [List.cons_append, format_loop, Bool.false_and, Bool.false_eq_true,
      if_false, ha, List.append_eq, ih (fun g hg => h1 g (List.mem_cons_of_mem a hg))]

/-- Claim C3 (witness for the amended theorem): concrete run with a
backend succeeding on GPKG, failing on SHP; KML is not attempted. -/
theorem C3_failure_aborts_format_loop_witness :
    format_loop badWrite false (["GPKG"] ++ "SHP" :: ["KML"]) = (["GPKG"] ++ ["SHP"], some "width") := by
  exact C3_failure_aborts_format_loop badWrite ["GPKG"] ["KML"] "SHP" "width"
    (by intro g hg; rw [List.mem_singleton] at hg; subst hg; rfl) rfl

/-! ## Claim C7 -/

/-- With a backend that succeeds on every requested format and the GeoJSON
skip flag set, the format loop attempts exactly the non-GeoJSON formats. -/
theorem format_loop_skip_true (write : String → Except String Unit) (formats : List String)
    (hok : ∀ d ∈ formats, write d = .ok ()) :
    format_loop write true formats = (formats.filter fun d => !(d.toUpper == "GEOJSON"), none) := by
  induction formats with
  | nil => rfl
  | cons a t ih =>
    have ha : write a = .ok () := hok a (List.mem_cons_self a t)
    have iht := ih fun d hd => hok d (List.mem_cons_of_mem a hd)
    by_cases hgj : (a.toUpper == "GEOJSON") = true
    · have step : format_loop write true (a :: t) = format_loop write true t := by
        simp only [format_loop, Bool.true_and, hgj, if_true]
      rw [step, iht, List.filter_cons, hgj]
      simp only [Bool.not_true, Bool.false_eq_true, if_false]
    · have hgj2 : (a.toUpper == "GEOJSON") = false := by
        cases h2 : (a.toUpper == "GEOJSON") with
        | true => exact absurd h2 hgj
        | false => rfl
      have step : format_loop write true (a :: t) =
          (a :: (format_loop write true t).1, (format_loop write true t).2) := by
        simp only [format_loop, Bool.true_and, hgj2, Bool.false_eq_true, if_false, ha]
      rw [step, iht, List.filter_cons, hgj2]
      simp only [Bool.not_false, if_true]

/-- With a backend that succeeds on every requested format and the GeoJSON
skip flag unset, the format loop attempts every requested format. -/
theorem format_loop_skip_false (write : String → Except String Unit) (formats : List String)
    (hok : ∀ d ∈ formats, write d = .ok ()) :
    format_loop write false formats = (formats, none) := by
  induction formats with
  | nil => rfl
  | cons a t ih =>
    have ha : write a = .ok () := hok a (List.mem_cons_self a t)
    simp only [format_loop, Bool.false_and, Bool.false_eq_true, if_false, ha,
      ih fun d hd => hok d (List.mem_cons_of_mem a hd)]

/-- Claim C7: in the per-feature export loop with a backend succeeding on
every requested format, a feature whose total coordinate count exceeds
50,000 has exactly the GeoJSON format excluded from its requested format
list (every other requested format is attempted, in order), while a
feature at or below the threshold has every requested format attempted. -/
theorem C7_geojson_size_cap (write : String → Except String Unit) (formats : List String)
    (geometry : Geom) (hok : ∀ d ∈ formats, write d = .ok ()) :
    (50000 < get_geometry_coordinate_count geometry →
      to_files_feature write formats geometry =
        (formats.filter fun d => !(d.toUpper == "GEOJSON"), none))
    ∧ (get_geometry_coordinate_count geometry ≤ 50000 →
      to_files_feature write formats geometry = (formats, none)) := by
  constructor
  · intro hbig
    rw [to_files_feature, decide_eq_true hbig]
    exact format_loop_skip_true write formats hok
  · intro hsmall
    have : decide (50000 < get_geometry_coordinate_count geometry) = false :=
      decide_eq_false (Nat.not_lt.mpr hsmall)
    rw [to_files_feature, this]
    exact format_loop_skip_false write formats hok

/-- A serialization backend that succeeds on every format. -/
def okWrite : String → Except String Unit := fun _ => .ok ()

/-- A polygon whose exterior ring has 60,000 coordinates. -/
def bigPoly : Geom := Geom.polygon (List.replicate 60000 ((0 : ℚ), (0 : ℚ))) []

/-- A polygon whose exterior ring has 100 coordinates. -/
def smallPoly : Geom := Geom.polygon (List.replicate 100 ((0 : ℚ), (0 : ℚ))) []

/-- Claim C7 (witness): concrete features over and under the threshold
with formats `["GPKG", "GEOJSON", "KML"]`. -/
theorem C7_geojson_size_cap_witness :
    to_files_feature okWrite ["GPKG", "GEOJSON", "KML"] bigPoly =
      ((["GPKG", "GEOJSON", "KML"] : List String).filter fun d => !(d.toUpper == "GEOJSON"), none)
    ∧ to_files_feature okWrite ["GPKG", "GEOJSON", "KML"] smallPoly =
      (["GPKG", "GEOJSON", "KML"], none) := by
  constructor
  · exact (C7_geojson_size_cap okWrite ["GPKG", "GEOJSON", "KML"] bigPoly
      (fun d _ => rfl)).1 (by
        rw [bigPoly, get_geometry_coordinate_count, List.length_replicate, List.map_nil,
          List.sum_nil, Nat.add_zero]
        decide)
  · exact (C7_geojson_size_cap okWrite ["GPKG", "GEOJSON", "KML"] smallPoly
      (fun d _ => rfl)).2 (by
        rw [smallPoly, get_geometry_coordinate_count, List.length_replicate, List.map_nil,
          List.sum_nil, Nat.add_zero]
        decide)

/-! ## Claim C4 -/

/-- When every attempt up to the retry cap fails with a transient HTTP
error, the retry loop sleeps once per remaining non-final iteration with
doubling delays and propagates the last HTTP error. -/
theorem retry_loop_all_http {α : Type} (call : Nat → Except FetchError α)
    (max_retries : Nat) (msg : Nat → String)
    (hcall : ∀ i, i < max_retries → call i = .error (.httpError (msg i))) :
    ∀ fuel attempt delay, 0 < fuel → attempt + fuel = max_retries →
      retry_loop call max_retries fuel attempt delay =
        (.error (.httpError (msg (max_retries - 1))),
          (List.range (fuel - 1)).map fun i => delay * 2 ^ i) := by
  intro fuel
  induction fuel with
  | zero => intro attempt delay h0 _; exact absurd h0 (by simp)
  | succ k ih =>
    intro attempt delay _ hsum
    have hlt : attempt < max_retries := by omega
    simp only [retry_loop, hcall attempt hlt]
    rcases Nat.eq_zero_or_pos k with hk | hk
    · subst hk
      have hna : ¬ attempt < max_retries - 1 := by omega
      rw [if_neg hna]
      have : attempt = max_retries - 1 := by omega
      simp [this]
    · have hna : attempt < max_retries - 1 := by omega
      rw [if_pos hna, ih (attempt + 1) (delay * 2) hk (by omega)]
      obtain ⟨j, rfl⟩ := Nat.exists_eq_succ_of_ne_zero (Nat.pos_iff_ne_zero.mp hk)
      simp only [Nat.succ_sub_one, Nat.succ_eq_add_one, Nat.add_sub_cancel]
      rw [List.map_congr_left (fun i _ => by rw [pow_succ]; ring :
            ∀ i ∈ List.range j, delay * 2 * 2 ^ i = delay * 2 ^ (i + 1)),
        List.range_succ_eq_map, List.map_cons, List.map_map]
      simp [Function.comp, Nat.succ_eq_add_one]

/-- Claim C4: on a transient (HTTP-class) error the fetch is retried up to
`max_retries - 1` additional times with the delay doubling after each
attempt, and after exhausting retries the last transient error
propagates; a non-transient error on the first attempt propagates
immediately with zero delays; a service failing twice transiently and
then succeeding, at the default `max_retries = 3` and
`initial_delay = 5`, returns successfully with exactly the two prior
delays 5 and 10. -/
theorem C4_overpass_retry_spec {α : Type} (call : Nat → Except FetchError α)
    (max_retries : Nat) (initial_delay : ℚ) :
    (∀ m, 0 < max_retries → call 0 = .error (.otherError m) →
      overpass_call_with_retry call max_retries initial_delay = (.error (.otherError m), []))
    ∧ (∀ msg : Nat → String, 0 < max_retries →
      (∀ i, i < max_retries → call i = .error (.httpError (msg i))) →
      overpass_call_with_retry call max_retries initial_delay =
        (.error (.httpError (msg (max_retries - 1))),
          (List.range (max_retries - 1)).map fun i => initial_delay * 2 ^ i))
    ∧ (∀ (a : α) m0 m1, call 0 = .error (.httpError m0) → call 1 = .error (.httpError m1) →
      call 2 = .ok a →
      overpass_call_with_retry call 3 5 = (.ok a, [5, 10])) := by
  refine ⟨?fatal, ?exhaust, ?scenario⟩
  case fatal =>
    intro m hpos h0
    obtain ⟨n, rfl⟩ := Nat.exists_eq_succ_of_ne_zero (Nat.pos_iff_ne_zero.mp hpos)
    simp only [overpass_call_with_retry, retry_loop, h0]
  case exhaust =>
    intro msg hpos hcall
    exact retry_loop_all_http call max_retries msg hcall max_retries 0 initial_delay hpos
      (Nat.zero_add _)
  case scenario =>
    intro a m0 m1 h0 h1 h2
    rw [overpass_call_with_retry]
    simp only [retry_loop, h0, h1, h2]
    norm_num

/-- Oracle for a remote service that always fails non-transiently. -/
def fatalCall : Nat → Except FetchError Nat := fun _ => .error (.otherError "boom")

/-- Oracle for a remote service that always fails transiently, tagging the
error message with the attempt number. -/
def allHttpCall : Nat → Except FetchError Nat := fun n => .error (.httpError (toString n))

/-- Oracle for a remote service that fails transiently twice and then
succeeds. -/
def flakyCall : Nat → Except FetchError Nat :=
  fun n => if n < 2 then .error (.httpError "503") else .ok 42

/-- Claim C4 (witness): the three retry behaviors on concrete oracles at
the default `max_retries = 3`, `initial_delay = 5`. -/
theorem C4_overpass_retry_spec_witness :
    overpass_call_with_retry fatalCall 3 5 = (.error (.otherError "boom"), [])
    ∧ overpass_call_with_retry allHttpCall 3 5 =
      (.error (.httpError (toString (3 - 1))), (List.range (3 - 1)).map fun i => (5 : ℚ) * 2 ^ i)
    ∧ overpass_call_with_retry flakyCall 3 5 = (.ok 42, [5, 10]) := by
  refine ⟨?_, ?_, ?_⟩
  · exact (C4_overpass_retry_spec fatalCall 3 5).1 "boom" (by decide) rfl
  · exact (C4_overpass_retry_spec allHttpCall 3 5).2.1 (fun n => toString n) (by decide)
      (fun i _ => rfl)
  · exact (C4_overpass_retry_spec flakyCall 3 5).2.2 42 "503" "503" rfl rfl rfl

/-! ## Claims C2, C5, C10: the overlap filter -/

/-- Dropping the `overlap_ratio` column right after assigning it restores a
row that did not have the column. -/
theorem unset_after_set {G : Type} (r : FeatureRow G) (x : Option ℚ) (h : r.overlap_ratio = none) :
    ({ { r with overlap_ratio := x } with overlap_ratio := none } : FeatureRow G) = r := by
  cases r
  simp only at h
  subst h
  rfl

/-- Unfolding of `filter_by_overlap` when both frames are non-empty. -/
theorem filter_by_overlap_ne {G : Type} (ops : GeoOps G) (gdf reference_gdf : List (FeatureRow G))
    (min_overlap_ratio : ℚ) (hg : gdf ≠ []) (hr : reference_gdf ≠ []) :
    filter_by_overlap ops gdf reference_gdf min_overlap_ratio =
      (gdf.map (fun r =>
          { r with overlap_ratio := some (calculate_overlap_ratio ops (referenceGeom ops reference_gdf) r.geometry) }),
        ((gdf.map (fun r =>
            { r with overlap_ratio := some (calculate_overlap_ratio ops (referenceGeom ops reference_gdf) r.geometry) })).filter
            (fun r => decide (min_overlap_ratio ≤ Option.getD r.overlap_ratio 0))).map
          (fun r => { r with overlap_ratio := none })) := by
  have h1 : reference_gdf.isEmpty = false := by
    cases reference_gdf with
    | nil => exact absurd rfl hr
    | cons a t => rfl
  have h2 : gdf.isEmpty = false := by
    cases gdf with
    | nil => exact absurd rfl hg
    | cons a t => rfl
  rw [filter_by_overlap, h1, h2]
  rfl

/-- Claim C2: `filter_by_overlap` returns the candidate set unchanged when
the candidate set or the reference set is empty; `apply_overlap_filter` is
a no-op at the root level (admin level 2); otherwise, when the overlap
computation succeeds on every candidate (intersection defined, candidate
area nonzero, empty geometries having zero area), a candidate is in the
output iff area(candidate ∩ reference) / area(candidate) is at least
`min_overlap_ratio`, with reference the union of the reference set's
geometries. -/
theorem C2_filter_by_overlap_spec {G : Type} (ops : GeoOps G)
    (gdf reference_gdf : List (FeatureRow G)) (min_overlap_ratio : ℚ) :
    ((gdf = [] ∨ reference_gdf = []) →
      filter_by_overlap ops gdf reference_gdf min_overlap_ratio = (gdf, gdf))
    ∧ (∀ reference, apply_overlap_filter ops gdf 2 reference = gdf)
    ∧ (gdf ≠ [] → reference_gdf ≠ [] →
      (∀ r ∈ gdf, r.overlap_ratio = none) →
      (∀ r ∈ gdf, (ops.inter r.geometry (referenceGeom ops reference_gdf)).isSome = true) →
      (∀ r ∈ gdf, ops.area r.geometry ≠ 0) →
      (∀ g, ops.isEmpty g = true → ops.area g = 0) →
      ∀ c, c ∈ (filter_by_overlap ops gdf reference_gdf min_overlap_ratio).2 ↔
        (c ∈ gdf ∧ min_overlap_ratio ≤
          ops.area ((ops.inter c.geometry (referenceGeom ops reference_gdf)).getD c.geometry) /
            ops.area c.geometry)) := by
  refine ⟨?empty, ?root, ?main⟩
  case empty =>
    rintro (rfl | rfl)
    · rw [filter_by_overlap]
      simp
    · rw [filter_by_overlap]
      simp
  case root =>
    intro reference
    cases reference with
    | none => rfl
    | some r => rfl
  case main =>
    intro hg hr hnone hsome harea hempty c
    have hcalc : ∀ r ∈ gdf,
        calculate_overlap_ratio ops (referenceGeom ops reference_gdf) r.geometry =
          ops.area ((ops.inter r.geometry (referenceGeom ops reference_gdf)).getD r.geometry) /
            ops.area r.geometry := by
      intro r hrg
      obtain ⟨i, hi⟩ := Option.isSome_iff_exists.mp (hsome r hrg)
      simp only [calculate_overlap_ratio, hi, Option.getD_some]
      by_cases he : ops.isEmpty i = true
      · rw [if_pos he, hempty i he, zero_div]
      · rw [if_neg he, if_neg (harea r hrg)]
    rw [filter_by_overlap_ne ops gdf reference_gdf _ hg hr]
    simp only [List.mem_map, List.mem_filter]
    constructor
    · rintro ⟨r1, ⟨⟨r0, hr0, rfl⟩, hp⟩, rfl⟩
      rw [unset_after_set r0 _ (hnone r0 hr0)]
      refine ⟨hr0, ?_⟩
      have hple := of_decide_eq_true hp
      rw [Option.getD_some, hcalc r0 hr0] at hple
      exact hple
    · rintro ⟨hc, hle⟩
      refine ⟨{ c with
          overlap_ratio := some (calculate_overlap_ratio ops (referenceGeom ops reference_gdf) c.geometry) },
        ⟨⟨c, hc, rfl⟩, ?_⟩, unset_after_set c _ (hnone c hc)⟩
      rw [Option.getD_some, hcalc c hc]
      exact decide_eq_true hle

/-- Claim C5: if the overlap computation for a candidate raises (the
intersection itself raises, or the division by the candidate's area
raises because the area is zero while the intersection is non-empty),
the candidate is retained in the filter's output (fail-open), for any
threshold at most 1. -/
theorem C5_overlap_filter_fail_open {G : Type} (ops : GeoOps G)
    (gdf reference_gdf : List (FeatureRow G)) (min_overlap_ratio : ℚ) (r : FeatureRow G)
    (hr : r ∈ gdf) (href : reference_gdf ≠ [])
    (hm : min_overlap_ratio ≤ 1) (hnone : r.overlap_ratio = none)
    (hraise : ops.inter r.geometry (referenceGeom ops reference_gdf) = none
      ∨ ∃ i, ops.inter r.geometry (referenceGeom ops reference_gdf) = some i
          ∧ ops.isEmpty i = false ∧ ops.area r.geometry = 0) :
    r ∈ (filter_by_overlap ops gdf reference_gdf min_overlap_ratio).2 := by
  have hg : gdf ≠ [] := List.ne_nil_of_mem hr
  rw [filter_by_overlap_ne ops gdf reference_gdf _ hg href]
  have hcalc : calculate_overlap_ratio ops (referenceGeom ops reference_gdf) r.geometry = 1 := by
    rcases hraise with h | ⟨i, hi, hie, hza⟩
    · simp only [calculate_overlap_ratio, h]
    · simp only [calculate_overlap_ratio, hi, hie, Bool.false_eq_true, if_false]
      rw [if_pos hza]
  refine List.mem_map.mpr ⟨{ r with
      overlap_ratio := some (calculate_overlap_ratio ops (referenceGeom ops reference_gdf) r.geometry) },
    List.mem_filter.mpr ⟨List.mem_map.mpr ⟨r, hr, rfl⟩, ?_⟩,
    unset_after_set r _ hnone⟩
  rw [Option.getD_some, hcalc]
  exact decide_eq_true hm

/-- Claim C10: when both the candidate and reference frames are non-empty,
`filter_by_overlap` mutates the caller's candidate frame in place: after
the call every row of the input frame carries an assigned
`overlap_ratio` column, while every row of the returned filtered frame
has the column dropped. -/
theorem C10_filter_by_overlap_mutates_input {G : Type} (ops : GeoOps G)
    (gdf reference_gdf : List (FeatureRow G)) (min_overlap_ratio : ℚ)
    (hg : gdf ≠ []) (hr : reference_gdf ≠ []) :
    (filter_by_overlap ops gdf reference_gdf min_overlap_ratio).1
      = gdf.map (fun r =>
          { r with overlap_ratio := some (calculate_overlap_ratio ops (referenceGeom ops reference_gdf) r.geometry) })
    ∧ (∀ r ∈ (filter_by_overlap ops gdf reference_gdf min_overlap_ratio).1,
        r.overlap_ratio.isSome = true)
    ∧ ∀ r ∈ (filter_by_overlap ops gdf reference_gdf min_overlap_ratio).2,
        r.overlap_ratio = none := by
  rw [filter_by_overlap_ne ops gdf reference_gdf _ hg hr]
  refine ⟨rfl, ?_, ?_⟩
  · intro r hmem
    obtain ⟨r0, _, rfl⟩ := List.mem_map.mp hmem
    rfl
  · intro r hmem
    obtain ⟨r0, _, rfl⟩ := List.mem_map.mp hmem
    rfl

/-- Concrete rational test engine for witnesses: a geometry is identified
with its area, intersection is the minimum, the empty geometry is 0. -/
def qOps : GeoOps ℚ where
  union := fun a b => a + b
  emptyG := 0
  inter := fun a b => some (min a b)
  isEmpty := fun g => g == 0
  area := fun g => g
  intersects := fun _ _ => true

/-- Variant of the test engine whose intersection always raises. -/
def failOps : GeoOps ℚ :=
  { qOps with inter := fun _ _ => none }

/-- A candidate row with unit area and no `overlap_ratio` column. -/
def rowA : FeatureRow ℚ := ⟨1, [], 1, none⟩

/-- A reference row with unit area. -/
def refRow : FeatureRow ℚ := ⟨0, [], 1, none⟩

/-- Claim C2 (witness): the empty no-op, the root-level no-op, and the
retention characterization at a concrete candidate. -/
theorem C2_filter_by_overlap_spec_witness :
    filter_by_overlap qOps ([] : List (FeatureRow ℚ)) [refRow] 0 = ([], [])
    ∧ apply_overlap_filter qOps [rowA] 2 (some [refRow]) = [rowA]
    ∧ (rowA ∈ (filter_by_overlap qOps [rowA] [refRow] 0).2 ↔
        (rowA ∈ [rowA] ∧ (0 : ℚ) ≤
          qOps.area ((qOps.inter rowA.geometry (referenceGeom qOps [refRow])).getD rowA.geometry) /
            qOps.area rowA.geometry)) := by
  refine ⟨?_, ?_, ?_⟩
  · exact (C2_filter_by_overlap_spec qOps [] [refRow] 0).1 (Or.inl rfl)
  · exact (C2_filter_by_overlap_spec qOps [rowA] [refRow] 0).2.1 (some [refRow])
  · exact (C2_filter_by_overlap_spec qOps [rowA] [refRow] 0).2.2
      (List.cons_ne_nil rowA []) (List.cons_ne_nil refRow [])
      (fun r h => by rw [List.mem_singleton] at h; subst h; rfl)
      (fun r _ => rfl)
      (fun r h => by rw [List.mem_singleton] at h; subst h; exact one_ne_zero)
      (fun g hg => eq_of_beq hg)
      rowA

/-- Claim C5 (witness): a candidate whose intersection raises is retained
at the deployed threshold 1/2. -/
theorem C5_overlap_filter_fail_open_witness :
    rowA ∈ (filter_by_overlap failOps [rowA] [refRow] (1/2)).2 :=
  C5_overlap_filter_fail_open failOps [rowA] [refRow] (1/2) rowA
    (List.mem_singleton.mpr rfl) (List.cons_ne_nil refRow [])
    (le_of_lt one_half_lt_one) rfl (Or.inl rfl)

/-- Claim C10 (witness): the frame effect at concrete non-empty frames. -/
theorem C10_filter_by_overlap_mutates_input_witness :
    (filter_by_overlap qOps [rowA] [refRow] (1/2)).1
      = [rowA].map (fun r =>
          { r with overlap_ratio := some (calculate_overlap_ratio qOps (referenceGeom qOps [refRow]) r.geometry) })
    ∧ (∀ r ∈ (filter_by_overlap qOps [rowA] [refRow] (1/2)).1,
        r.overlap_ratio.isSome = true)
    ∧ ∀ r ∈ (filter_by_overlap qOps [rowA] [refRow] (1/2)).2,
        r.overlap_ratio = none :=
  C10_filter_by_overlap_mutates_input qOps [rowA] [refRow] (1/2)
    (List.cons_ne_nil rowA []) (List.cons_ne_nil refRow [])

/-! ## Claim C8: grouped re-aggregation -/

/-- Replacing a row's geometry by itself is the identity. -/
theorem set_geometry_self {G : Type} (r : FeatureRow G) :
    ({ r with geometry := r.geometry } : FeatureRow G) = r := by
  cases r
  rfl

/-- Membership in the first-occurrence distinct list implies membership in
the original list. -/
theorem mem_of_mem_unique_ids (l : List Int) : ∀ a, a ∈ unique_ids l → a ∈ l := by
  induction l using unique_ids.induct with
  | case1 =>
    intro a h
    rw [unique_ids] at h
    exact absurd h (List.not_mem_nil a)
  | case2 x xs ih =>
    intro a h
    rw [unique_ids] at h
    rcases List.mem_cons.mp h with rfl | h2
    · exact List.mem_cons_self _ _
    · exact List.mem_cons_of_mem _ (List.mem_of_mem_filter (ih a h2))

/-- The first-occurrence distinct list has no duplicates. -/
theorem unique_ids_nodup (l : List Int) : (unique_ids l).Nodup := by
  induction l using unique_ids.induct with
  | case1 =>
    rw [unique_ids]
    exact List.nodup_nil
  | case2 x xs ih =>
    rw [unique_ids]
    refine List.nodup_cons.mpr ⟨?_, ih⟩
    intro hx
    have hmem := mem_of_mem_unique_ids _ x hx
    have hpred := (List.mem_filter.mp hmem).2
    simp at hpred

/-- First-occurrence dedup is the identity on a duplicate-free list. -/
theorem unique_ids_of_nodup (l : List Int) (h : l.Nodup) : unique_ids l = l := by
  induction l with
  | nil => rw [unique_ids]
  | cons x xs ih =>
    rw [unique_ids]
    have hx : x ∉ xs := (List.nodup_cons.mp h).1
    have hfil : xs.filter (fun y => !(y == x)) = xs := by
      apply List.filter_eq_self.mpr
      intro a ha
      have hne : a ≠ x := fun he => hx (he ▸ ha)
      simp [hne]
    rw [hfil, ih (List.nodup_cons.mp h).2]

/-- In a frame whose ids are duplicate-free, each row's group is the
singleton of that row. -/
theorem filter_id_eq_singleton {G : Type} (gdf : List (FeatureRow G))
    (hnd : (gdf.map (·.id)).Nodup) :
    ∀ r ∈ gdf, gdf.filter (fun x => x.id == r.id) = [r] := by
  induction gdf with
  | nil =>
    intro r h
    exact absurd h (List.not_mem_nil r)
  | cons a l ih =>
    intro r hmem
    rw [List.map_cons] at hnd
    have hand := List.nodup_cons.mp hnd
    rcases List.mem_cons.mp hmem with rfl | hr
    · rw [List.filter_cons]
      simp only [beq_self_eq_true, if_true]
      have hnil : l.filter (fun x => x.id == r.id) = [] := by
        rw [List.filter_eq_nil_iff]
        intro x hx hbeq
        exact hand.1 (List.mem_map.mpr ⟨x, hx, eq_of_beq hbeq⟩)
      rw [hnil]
    · have hne : (a.id == r.id) = false := by
        cases hc : (a.id == r.id) with
        | false => rfl
        | true =>
          exact absurd (List.mem_map.mpr ⟨r, hr, (eq_of_beq hc).symm⟩) hand.1
      rw [List.filter_cons, hne]
      simp only [Bool.false_eq_true, if_false]
      exact ih hand.2 r hr

/-- Unfolding of `reaggregate` on a non-empty frame. -/
theorem reaggregate_eq_flatMap {G : Type} (ops : GeoOps G) (gdf : List (FeatureRow G))
    (h : gdf ≠ []) :
    reaggregate ops gdf = (unique_ids (gdf.map (·.id))).flatMap fun relation_id =>
      match gdf.filter (fun r => r.id == relation_id) with
      | [] => []
      | first :: rest =>
        [{ first with geometry := unionAll ops ((first :: rest).map (·.geometry)) }] := by
  have hE : gdf.isEmpty = false := by
    cases gdf with
    | nil => exact absurd rfl h
    | cons a t => rfl
  simp only [reaggregate, hE, Bool.false_eq_true, if_false]

/-- Claim C8: grouped re-aggregation produces exactly one feature per
relation id (in first-occurrence order), each carrying the union of its
group's geometries and the attributes of the group's first-seen member,
and it is idempotent: on a frame that already has one feature per
relation id it is the identity. -/
theorem C8_reaggregate_spec {G : Type} (ops : GeoOps G) (gdf : List (FeatureRow G)) :
    ((reaggregate ops gdf).map (·.id) = unique_ids (gdf.map (·.id)))
    ∧ (unique_ids (gdf.map (·.id))).Nodup
    ∧ (∀ f ∈ reaggregate ops gdf, ∃ first rest,
        gdf.filter (fun r => r.id == f.id) = first :: rest
        ∧ f = { first with geometry := unionAll ops ((first :: rest).map (·.geometry)) })
    ∧ ((gdf.map (·.id)).Nodup → reaggregate ops gdf = gdf) := by
  refine ⟨?ids, unique_ids_nodup _, ?groups, ?idem⟩
  case ids =>
    by_cases hgdf : gdf = []
    · subst hgdf
      rw [show reaggregate ops ([] : List (FeatureRow G)) = [] from rfl]
      simp only [List.map_nil]
      rw [unique_ids]
    · rw [reaggregate_eq_flatMap ops gdf hgdf, List.map_flatMap]
      conv_rhs => rw [← List.map_id' (unique_ids (gdf.map fun x => x.id))]
      apply flatMap_congr_singleton
      intro rid hin
      obtain ⟨r, hrg, hrid⟩ := List.mem_map.mp (mem_of_mem_unique_ids _ rid hin)
      have hne : gdf.filter (fun x => x.id == rid) ≠ [] := by
        intro hnil
        have hrmem : r ∈ gdf.filter (fun x => x.id == rid) :=
          List.mem_filter.mpr ⟨hrg, by rw [hrid]; exact beq_self_eq_true rid⟩
        rw [hnil] at hrmem
        exact absurd hrmem (List.not_mem_nil r)
      cases hfil : gdf.filter (fun x => x.id == rid) with
      | nil => exact absurd hfil hne
      | cons first rest =>
        have hfirst : first ∈ gdf.filter (fun x => x.id == rid) := by
          rw [hfil]
          exact List.mem_cons_self _ _
        have hbeq : (first.id == rid) = true := (List.mem_filter.mp hfirst).2
        show [first.id] = [rid]
        rw [eq_of_beq hbeq]
  case groups =>
    intro f hf
    have hgne : gdf ≠ [] := by
      intro hnil
      rw [hnil] at hf
      exact absurd hf (List.not_mem_nil f)
    rw [reaggregate_eq_flatMap ops gdf hgne] at hf
    obtain ⟨rid, hridmem, hfin⟩ := List.mem_flatMap.mp hf
    cases hfil : gdf.filter (fun x => x.id == rid) with
    | nil =>
      rw [hfil] at hfin
      exact absurd hfin (List.not_mem_nil f)
    | cons first rest =>
      rw [hfil] at hfin
      have hfeq : f = { first with
          geometry := unionAll ops ((first :: rest).map (·.geometry)) } :=
        List.mem_singleton.mp hfin
      have hfirst : first ∈ gdf.filter (fun x => x.id == rid) := by
        rw [hfil]
        exact List.mem_cons_self _ _
      have hbeq : (first.id == rid) = true := (List.mem_filter.mp hfirst).2
      have hridf : rid = f.id := by
        rw [hfeq]
        exact (eq_of_beq hbeq).symm
      refine ⟨first, rest, ?_, hfeq⟩
      rw [← hridf]
      exact hfil
  case idem =>
    intro hnd
    by_cases hgdf : gdf = []
    · subst hgdf
      rfl
    · rw [reaggregate_eq_flatMap ops gdf hgdf, unique_ids_of_nodup _ hnd,
        List.flatMap_map]
      conv_rhs => rw [← List.map_id' gdf]
      apply flatMap_congr_singleton
      intro r hr
      rw [filter_id_eq_singleton gdf hnd r hr]
      show [{ r with geometry := unionAll ops ([r].map (·.geometry)) }] = [r]
      rw [show ([r].map fun x => x.geometry) = [r.geometry] from rfl, unionAll_singleton,
        set_geometry_self]

/-- Nat-geometry test engine for witnesses of the reconciliation and
re-aggregation claims. -/
def natOps : GeoOps Nat where
  union := fun a b => a + b
  emptyG := 0
  inter := fun a b => some (min a b)
  isEmpty := fun g => g == 0
  area := fun _ => 0
  intersects := fun _ _ => true

/-- A frame row with relation id 1. -/
def rowN1 : FeatureRow Nat := ⟨1, [], 5, none⟩

/-- A frame row with relation id 2. -/
def rowN2 : FeatureRow Nat := ⟨2, [], 7, none⟩

/-- Claim C8 (witness): re-aggregating an already-aggregated concrete
frame yields the same frame. -/
theorem C8_reaggregate_spec_witness :
    reaggregate natOps [rowN1, rowN2] = [rowN1, rowN2] :=
  (C8_reaggregate_spec natOps [rowN1, rowN2]).2.2.2 (by decide)

/-! ## Claim C6: land/maritime reconciliation -/

/-- Provenance of reconciliation output: every output feature is one
maritime input feature with only its geometry replaced by the dissolved
union of that feature's own non-empty land intersection pieces. -/
theorem intersect_out_mem {G : Type} (ops : GeoOps G) (gdf_osm_land : List (FeatureRow G)) :
    ∀ ms out : List (FeatureRow G),
      intersect_maritime_with_land ops ms gdf_osm_land = some out →
      ∀ f ∈ out, ∃ m ∈ ms, ∃ pieces,
        land_intersection_pieces ops gdf_osm_land m = some pieces
        ∧ pieces ≠ [] ∧ f = { m with geometry := unionAll ops pieces } := by
  intro ms
  induction ms with
  | nil =>
    intro out h f hf
    rw [intersect_maritime_with_land, List.mapM_nil] at h
    simp only [Option.pure_def, Option.map_some', List.flatten_nil, Option.some.injEq] at h
    subst h
    exact absurd hf (List.not_mem_nil f)
  | cons m ms ih =>
    intro out h f hf
    rw [intersect_maritime_with_land, List.mapM_cons] at h
    cases hy : intersect_with_land_single ops gdf_osm_land m with
    | none =>
      rw [hy] at h
      exact Option.noConfusion (show (none : Option (List (FeatureRow G))) = some out from h)
    | some y =>
      rw [hy] at h
      cases hys : List.mapM (intersect_with_land_single ops gdf_osm_land) ms with
      | none =>
        rw [hys] at h
        exact Option.noConfusion (show (none : Option (List (FeatureRow G))) = some out from h)
      | some ys =>
        rw [hys] at h
        have hout : y ++ ys.flatten = out :=
          Option.some.inj (show some (y ++ ys.flatten) = some out from h)
        subst hout
        rcases List.mem_append.mp hf with hfy | hfys
        · rw [intersect_with_land_single] at hy
          obtain ⟨pieces, hp, hyeq⟩ := Option.map_eq_some'.mp hy
          cases hpe : pieces.isEmpty with
          | true =>
            simp only [hpe, if_true] at hyeq
            rw [← hyeq] at hfy
            exact absurd hfy (List.not_mem_nil f)
          | false =>
            simp only [hpe, Bool.false_eq_true, if_false] at hyeq
            rw [← hyeq] at hfy
            refine ⟨m, List.mem_cons_self m ms, pieces, hp, ?_, List.mem_singleton.mp hfy⟩
            intro hnil
            rw [hnil] at hpe
            simp at hpe
        · have hrec : intersect_maritime_with_land ops ms gdf_osm_land = some ys.flatten := by
            rw [intersect_maritime_with_land, hys]
            rfl
          obtain ⟨m2, hm2, pieces, hp, hpne, hfeq⟩ := ih ys.flatten hrec f hfys
          exact ⟨m2, List.mem_cons_of_mem m hm2, pieces, hp, hpne, hfeq⟩

/-- Claim C6: land/maritime reconciliation processes maritime features
independently: every output feature carries the relation id and tags of
exactly one input maritime feature, with only its geometry replaced by
the dissolved union of that feature's own non-empty land intersection
pieces (so no output combines geometry of two maritime relation ids);
and, when relation ids are distinct, a maritime feature whose land
intersection is empty contributes no output feature. -/
theorem C6_land_reconciliation {G : Type} (ops : GeoOps G)
    (gdf_maritime gdf_osm_land out : List (FeatureRow G))
    (h : intersect_maritime_with_land ops gdf_maritime gdf_osm_land = some out) :
    (∀ f ∈ out, ∃ m ∈ gdf_maritime, ∃ pieces,
        land_intersection_pieces ops gdf_osm_land m = some pieces
        ∧ pieces ≠ [] ∧ f = { m with geometry := unionAll ops pieces })
    ∧ ((gdf_maritime.map (·.id)).Nodup →
        ∀ m ∈ gdf_maritime, land_intersection_pieces ops gdf_osm_land m = some [] →
        ∀ f ∈ out, f.id ≠ m.id) := by
  refine ⟨intersect_out_mem ops gdf_osm_land gdf_maritime out h, ?_⟩
  intro hnd m hm hempty f hf hid
  obtain ⟨m2, hm2, pieces, hp, hpne, hfeq⟩ :=
    intersect_out_mem ops gdf_osm_land gdf_maritime out h f hf
  have hid2 : m2.id = m.id := by
    rw [hfeq] at hid
    exact hid
  have hmm : m2 = m := List.inj_on_of_nodup_map hnd hm2 hm hid2
  rw [hmm, hempty] at hp
  exact hpne (Option.some.inj hp).symm

/-- A maritime row whose geometry meets the land dataset. -/
def mar10 : FeatureRow Nat := ⟨10, [], 5, none⟩

/-- A maritime row whose land intersection is empty. -/
def mar11 : FeatureRow Nat := ⟨11, [], 0, none⟩

/-- A land dataset row. -/
def land100 : FeatureRow Nat := ⟨100, [], 3, none⟩

/-- Claim C6 (witness): a concrete run with one intersecting maritime
feature (id 10) and one maritime feature with empty land intersection
(id 11); the output is the single land-clipped id-10 feature. -/
theorem C6_land_reconciliation_witness :
    (∀ f ∈ ([⟨10, [], 3, none⟩] : List (FeatureRow Nat)), ∃ m ∈ [mar10, mar11], ∃ pieces,
        land_intersection_pieces natOps [land100] m = some pieces
        ∧ pieces ≠ [] ∧ f = { m with geometry := unionAll natOps pieces })
    ∧ ((([mar10, mar11] : List (FeatureRow Nat)).map (·.id)).Nodup →
        ∀ m ∈ [mar10, mar11], land_intersection_pieces natOps [land100] m = some [] →
        ∀ f ∈ ([⟨10, [], 3, none⟩] : List (FeatureRow Nat)), f.id ≠ m.id) :=
  C6_land_reconciliation natOps [mar10, mar11] [land100] [⟨10, [], 3, none⟩] (by decide)

end NB
